import Mathlib

set_option maxRecDepth 10000

/-!
Verification of the NutriScan numeric inference pipeline: a shallow embedding
of the detection-tensor parser (`parseYOLOOutput`), the non-maximum
suppression stage (`applyNMS`, `calculateIoU` from `src/lib/inference/nms.ts`),
the mask reconstruction (`generateMask`, `resizeAndBinarizeMask`), the
physics-based nutrition estimator (`calculateNutrition`) and the orchestrating
pipeline of `src/workers/inference.worker.ts`.

Machine floats of the source are modelled as exact rationals (`ℚ`); the one
transcendental step, the sigmoid activation of the mask reconstruction,
is modelled over `ℝ` with `Real.exp`.  Tensor dims arrive as tuples of `ℕ`.
JavaScript array reads that stay in bounds are modelled with `List.getD`.
-/

/-! ## Configuration constants (`INFERENCE_CONFIG` in `src/lib/constants.ts`) -/

/-- Model input resolution (`INPUT_SIZE: 640`). -/
def INPUT_SIZE : ℕ := 640

/-- Minimum confidence for a detection (`CONFIDENCE_THRESHOLD: 0.25`). -/
def CONFIDENCE_THRESHOLD : ℚ := 0.25

/-- Maximum tolerated overlap for same-class boxes (`IOU_THRESHOLD: 0.45`). -/
def IOU_THRESHOLD : ℚ := 0.45

/-- Mask binarization threshold (`MASK_THRESHOLD: 0.5`). -/
def MASK_THRESHOLD : ℚ := 0.5

/-- Real-world centimeters per pixel edge (source constant `30 / 640`,
named `PIXEL` `RATIO` in `INFERENCE_CONFIG`). -/
def PIXEL_SCALE : ℚ := 30 / 640

/-! ## Data model (`src/lib/inference/types.ts`) -/

/-- Bounding box in center format, normalized coordinates. -/
structure BoundingBox where
  x : ℚ
  y : ℚ
  width : ℚ
  height : ℚ
deriving DecidableEq

/-- Raw detection produced by the YOLO output parser. -/
structure RawDetection where
  classId : ℕ
  confidence : ℚ
  box : BoundingBox
  maskCoeffs : List ℚ
deriving DecidableEq

/-- Nutrition information computed for one detection. -/
structure NutritionInfo where
  weightGrams : ℚ
  calories : ℚ
  protein : ℚ
  carbs : ℚ
  fat : ℚ
  fiber : ℚ
deriving DecidableEq

/-- Food metadata record from the nutrition database. -/
structure FoodInfo where
  id : ℤ
  name : String
  density : ℚ
  defaultThicknessCm : ℚ
  caloriesPer100g : ℚ
  proteinPer100g : ℚ
  carbsPer100g : ℚ
  fatPer100g : ℚ
  fiberPer100g : ℚ
  icon : String
deriving DecidableEq

/-- Final output unit of the pipeline. -/
structure Detection where
  classId : ℕ
  label : String
  confidence : ℚ
  box : BoundingBox
  mask : List ℚ
  nutrition : NutritionInfo
  icon : String

/-- Complete inference result returned by the worker. -/
structure InferenceResult where
  detections : List Detection
  totalCalories : ℚ
  processingTime : ℚ
  message : Option String

/-! ## IoU computation (`calculateIoU`, `src/lib/inference/nms.ts` lines 71-105) -/

/-- Intersection over union of two center-format boxes, translated line by
line from `calculateIoU`: corner conversion, clamped intersection extents,
union by inclusion-exclusion, with an explicit zero-union guard. -/
def calculateIoU (box1 box2 : BoundingBox) : ℚ :=
  let x1_min := box1.x - box1.width / 2
  let y1_min := box1.y - box1.height / 2
  let x1_max := box1.x + box1.width / 2
  let y1_max := box1.y + box1.height / 2
  let x2_min := box2.x - box2.width / 2
  let y2_min := box2.y - box2.height / 2
  let x2_max := box2.x + box2.width / 2
  let y2_max := box2.y + box2.height / 2
  let inter_x_min := max x1_min x2_min
  let inter_y_min := max y1_min y2_min
  let inter_x_max := min x1_max x2_max
  let inter_y_max := min y1_max y2_max
  let inter_width := max 0 (inter_x_max - inter_x_min)
  let inter_height := max 0 (inter_y_max - inter_y_min)
  let inter_area := inter_width * inter_height
  let box1_area := box1.width * box1.height
  let box2_area := box2.width * box2.height
  let union_area := box1_area + box2_area - inter_area
  if union_area = 0 then 0
  else inter_area / union_area

/-- The intersection-area subexpression of `calculateIoU`, exposed as a
definition so that specifications can speak about it. -/
def interAreaCalc (box1 box2 : BoundingBox) : ℚ :=
  let x1_min := box1.x - box1.width / 2
  let y1_min := box1.y - box1.height / 2
  let x1_max := box1.x + box1.width / 2
  let y1_max := box1.y + box1.height / 2
  let x2_min := box2.x - box2.width / 2
  let y2_min := box2.y - box2.height / 2
  let x2_max := box2.x + box2.width / 2
  let y2_max := box2.y + box2.height / 2
  let inter_x_min := max x1_min x2_min
  let inter_y_min := max y1_min y2_min
  let inter_x_max := min x1_max x2_max
  let inter_y_max := min y1_max y2_max
  let inter_width := max 0 (inter_x_max - inter_x_min)
  let inter_height := max 0 (inter_y_max - inter_y_min)
  inter_width * inter_height

/-- The union-area subexpression of `calculateIoU`. -/
def unionAreaCalc (box1 box2 : BoundingBox) : ℚ :=
  box1.width * box1.height + box2.width * box2.height - interAreaCalc box1 box2

/-! ## Non-maximum suppression (`applyNMS`, `src/lib/inference/nms.ts` lines 16-63) -/

/-- Placeholder detection used to model JavaScript index reads (every read in
the translated loops is in bounds, so the default is never observed). -/
def dummyDetection : RawDetection := ⟨0, 0, ⟨0, 0, 0, 0⟩, []⟩

/-- One iteration of the inner suppression loop (lines 44-59 of `nms.ts`):
skip an already-suppressed `j`, otherwise compare classes and mark `j`
suppressed when the IoU with the kept detection exceeds the threshold. -/
def nmsInnerStep (filtered : List RawDetection) (iouThreshold : ℚ)
    (currentDetection : RawDetection) (suppressed : List ℕ) (j : ℕ) : List ℕ :=
  if j ∈ suppressed then suppressed
  else
    let otherDetection := filtered.getD j dummyDetection
    if currentDetection.classId = otherDetection.classId then
      if iouThreshold < calculateIoU currentDetection.box otherDetection.box then
        j :: suppressed
      else suppressed
    else suppressed

/-- One iteration of the outer loop (lines 35-60 of `nms.ts`): skip a
suppressed index, otherwise keep `filtered[i]` and run the inner loop over
the remaining indices `i+1 … n-1`. -/
def nmsOuterStep (filtered : List RawDetection) (iouThreshold : ℚ) (n : ℕ)
    (acc : List RawDetection × List ℕ) (i : ℕ) : List RawDetection × List ℕ :=
  if i ∈ acc.2 then acc
  else
    let currentDetection := filtered.getD i dummyDetection
    (acc.1 ++ [currentDetection],
      (List.range' (i + 1) (n - (i + 1))).foldl
        (nmsInnerStep filtered iouThreshold currentDetection) acc.2)

/-- `applyNMS` from `nms.ts`: confidence filter, confidence-descending stable
sort (the JavaScript `Array.prototype.sort` with comparator
`b.confidence - a.confidence`), then the two nested suppression loops. -/
def applyNMS (detections : List RawDetection)
    (confThreshold iouThreshold : ℚ) : List RawDetection :=
  let filtered := detections.filter (fun d => confThreshold ≤ d.confidence)
  if filtered.length = 0 then []
  else
    let sorted :=
      filtered.insertionSort (fun a b => b.confidence ≤ a.confidence)
    ((List.range sorted.length).foldl
      (nmsOuterStep sorted iouThreshold sorted.length) ([], [])).1

/-! ## YOLO output parser (`parseYOLOOutput`, `inference.worker.ts` lines 226-293) -/

/-- Number of food classes decoded by the parser (hard-coded `32`). -/
def numClasses : ℕ := 32

/-- Number of mask coefficients decoded by the parser (hard-coded `32`). -/
def numMaskCoeffs : ℕ := 32

/-- `parseYOLOOutput`: iterate the anchors of the flat `[1, C, A]` detection
tensor; per anchor read the box channels, scan the 32 class-score channels
for the maximum (in the source `maxScore` starts at `-Infinity`, so the
comparison at class 0 always succeeds and the scan is equivalent to starting
from `(classScore 0, 0)`), drop the anchor when the best score is below the
confidence threshold, otherwise read the 32 mask coefficients and push a
detection with the box normalized by `INPUT_SIZE`.  Note the declared channel
count `dims.2.1` is destructured but never used by the source. -/
def parseYOLOOutput (data : List ℚ) (dims : ℕ × ℕ × ℕ) : List RawDetection :=
  let numAnchors := dims.2.2
  (List.range numAnchors).foldl
    (fun dets i =>
      let x := data.getD i 0
      let y := data.getD (numAnchors + i) 0
      let w := data.getD (2 * numAnchors + i) 0
      let h := data.getD (3 * numAnchors + i) 0
      let classScore : ℕ → ℚ := fun c => data.getD ((4 + c) * numAnchors + i) 0
      let best :=
        (List.range' 1 (numClasses - 1)).foldl
          (fun b c => if b.1 < classScore c then (classScore c, c) else b)
          (classScore 0, 0)
      if best.1 < CONFIDENCE_THRESHOLD then dets
      else
        let maskCoeffs :=
          (List.range numMaskCoeffs).map
            (fun m => data.getD ((4 + numClasses + m) * numAnchors + i) 0)
        let box : BoundingBox :=
          ⟨x / (INPUT_SIZE : ℚ), y / (INPUT_SIZE : ℚ),
           w / (INPUT_SIZE : ℚ), h / (INPUT_SIZE : ℚ)⟩
        dets ++ [⟨best.2, best.1, box, maskCoeffs⟩])
    []

/-! ## Food database (`src/lib/inference/foodDatabase.ts`) -/

/-- Fallback food info for unknown class IDs (`FALLBACK_FOOD_INFO`). -/
def FALLBACK_FOOD_INFO : FoodInfo :=
  ⟨-1, "Aliment inconnu", 0.5, 1.5, 100, 5.0, 15.0, 3.0, 1.0, "❓"⟩

/-- The 32-entry `FOOD_DATABASE` record, keyed by class ID. -/
def FOOD_DATABASE (classId : ℕ) : Option FoodInfo :=
  match classId with
  | 0 => some (⟨0, "Riz", 0.75, 2.0, 130, 2.7, 28.0, 0.3, 0.4, "🍚"⟩)
  | 1 => some (⟨1, "Pain", 0.25, 2.0, 265, 9.0, 49.0, 3.2, 2.7, "🍞"⟩)
  | 2 => some (⟨2, "Œuf", 1.03, 1.5, 155, 13.0, 1.1, 11.0, 0.0, "🥚"⟩)
  | 3 => some (⟨3, "Poulet", 0.95, 2.5, 239, 27.0, 0.0, 14.0, 0.0, "🍗"⟩)
  | 4 => some (⟨4, "Porc", 1.0, 2.0, 242, 27.0, 0.0, 14.0, 0.0, "🥓"⟩)
  | 5 => some (⟨5, "Steak", 1.05, 1.2, 271, 25.0, 0.0, 19.0, 0.0, "🥩"⟩)
  | 6 => some (⟨6, "Poisson", 1.0, 2.0, 206, 22.0, 0.0, 12.0, 0.0, "🐟"⟩)
  | 7 => some (⟨7, "Crevette", 0.95, 1.0, 99, 24.0, 0.2, 0.3, 0.0, "🦐"⟩)
  | 8 => some (⟨8, "Saucisse", 0.95, 2.5, 301, 12.0, 2.0, 27.0, 0.0, "🌭"⟩)
  | 9 => some (⟨9, "Tofu", 1.05, 2.0, 76, 8.0, 1.9, 4.8, 0.3, "🧈"⟩)
  | 10 => some (⟨10, "Nouilles", 0.75, 2.0, 138, 4.5, 25.0, 2.0, 1.0, "🍜"⟩)
  | 11 => some (⟨11, "Pâtes", 0.8, 2.5, 131, 5.0, 25.0, 1.1, 1.8, "🍝"⟩)
  | 12 => some (⟨12, "Pizza", 0.65, 1.5, 266, 11.0, 33.0, 10.0, 2.3, "🍕"⟩)
  | 13 => some (⟨13, "Hamburger", 0.7, 6.0, 295, 17.0, 24.0, 14.0, 1.3, "🍔"⟩)
  | 14 => some (⟨14, "Frites", 0.55, 3.0, 312, 3.4, 41.0, 15.0, 3.8, "🍟"⟩)
  | 15 => some (⟨15, "Pomme de terre", 0.7, 2.0, 77, 2.0, 17.5, 0.1, 2.2, "🥔"⟩)
  | 16 => some (⟨16, "Soupe", 1.0, 4.0, 30, 1.5, 4.0, 0.7, 0.5, "🍲"⟩)
  | 17 => some (⟨17, "Sauce", 1.1, 0.5, 75, 1.5, 8.0, 4.5, 0.5, "🥫"⟩)
  | 18 => some (⟨18, "Aubergine", 0.6, 2.0, 25, 1.0, 6.0, 0.2, 3.0, "🍆"⟩)
  | 19 => some (⟨19, "Épinards", 0.35, 1.5, 23, 2.9, 3.6, 0.4, 2.2, "🥬"⟩)
  | 20 => some (⟨20, "Chou", 0.4, 2.0, 25, 1.3, 6.0, 0.1, 2.5, "🥬"⟩)
  | 21 => some (⟨21, "Légumes mélangés", 0.65, 1.5, 65, 2.6, 13.0, 0.3, 3.0, "🥗"⟩)
  | 22 => some (⟨22, "Raviolis / Gyoza", 0.9, 2.0, 220, 9.0, 25.0, 9.0, 1.0, "🥟"⟩)
  | 23 => some (⟨23, "Viande panée", 0.85, 2.0, 260, 18.0, 12.0, 15.0, 0.5, "🍖"⟩)
  | 24 => some (⟨24, "Salade", 0.3, 3.0, 20, 1.4, 3.3, 0.2, 1.8, "🥗"⟩)
  | 25 => some (⟨25, "Fromage", 1.1, 1.0, 402, 25.0, 1.3, 33.0, 0.0, "🧀"⟩)
  | 26 => some (⟨26, "Soja / Nattō", 0.7, 1.5, 446, 36.0, 30.0, 20.0, 9.0, "🫘"⟩)
  | 27 => some (⟨27, "Boisson", 1.0, 5.0, 40, 0.0, 10.0, 0.0, 0.0, "🥤"⟩)
  | 28 => some (⟨28, "Poivron", 0.5, 1.5, 20, 0.9, 4.6, 0.2, 1.7, "🌶️"⟩)
  | 29 => some (⟨29, "Carotte", 0.6, 1.5, 41, 0.9, 10.0, 0.2, 2.8, "🥕"⟩)
  | 30 => some (⟨30, "Gâteau", 0.45, 4.0, 347, 5.0, 52.0, 13.0, 0.5, "🍰"⟩)
  | 31 => some (⟨31, "Oignon", 0.55, 1.5, 40, 1.1, 9.3, 0.1, 1.7, "🧅"⟩)
  | _ => none

/-- `getFoodInfo`: database lookup with fallback for unknown class IDs. -/
def getFoodInfo (classId : ℕ) : FoodInfo :=
  (FOOD_DATABASE classId).getD FALLBACK_FOOD_INFO

/-! ## Nutrition estimation (`calculateNutrition`, `postprocessing` lines 253-305) -/

/-- `calculateNutrition`: count mask pixels (`reduce((sum, val) => sum + val, 0)`),
short-circuit to the all-zero record when the count is zero, otherwise run the
five-step physical model: pixel area → real area (`pixelCount * ratio²`) →
volume (`* thickness`) → weight (`* density`) → per-100g nutrient scaling. -/
def calculateNutrition (mask : List ℚ) (foodInfo : FoodInfo) : NutritionInfo :=
  let pixelCount := mask.foldl (fun sum val => sum + val) 0
  if pixelCount = 0 then ⟨0, 0, 0, 0, 0, 0⟩
  else
    let areaRealCm2 := pixelCount * PIXEL_SCALE ^ 2
    let volumeCm3 := areaRealCm2 * foodInfo.defaultThicknessCm
    let weightGrams := volumeCm3 * foodInfo.density
    let scaleFactor := weightGrams / 100
    ⟨weightGrams,
     scaleFactor * foodInfo.caloriesPer100g,
     scaleFactor * foodInfo.proteinPer100g,
     scaleFactor * foodInfo.carbsPer100g,
     scaleFactor * foodInfo.fatPer100g,
     scaleFactor * foodInfo.fiberPer100g⟩

/-! ## Mask reconstruction (`generateMask` / `resizeAndBinarizeMask`,
`postprocessing` lines 153-235) -/

/-- The logistic activation `1 / (1 + exp(-x))` applied by `generateMask`. -/
noncomputable def sigmoid (x : ℝ) : ℝ := 1 / (1 + Real.exp (-x))

/-- The pre-sigmoid weighted sum of prototype channels at flat spatial
position `i` (the matrix-multiplication loop of `generateMask`). -/
def maskLogit (coeffs protos : List ℚ) (numProtos outputSize i : ℕ) : ℚ :=
  (List.range numProtos).foldl
    (fun sum c => sum + coeffs.getD c 0 * protos.getD (c * outputSize + i) 0) 0

/-- The soft (sigmoid) mask value sampled by the resize step. -/
noncomputable def maskSoftValue (coeffs protos : List ℚ)
    (numProtos outputSize i : ℕ) : ℝ :=
  sigmoid ((maskLogit coeffs protos numProtos outputSize i : ℚ) : ℝ)

/-- `resizeAndBinarizeMask`: nearest-neighbor upsampling of the soft mask to
`dstH × dstW` followed by thresholding to `0`/`1`.  The source fills the
row-major array position `y * dstW + x` for every `y < dstH`, `x < dstW`;
this is modelled as a map over the flat index with `y = idx / dstW`,
`x = idx % dstW`.  `floor(x * srcW / dstW)` is natural-number division.
The soft mask array is passed as its (everywhere in-bounds) read function. -/
noncomputable def resizeAndBinarizeMask (mask : ℕ → ℝ)
    (srcH srcW dstH dstW : ℕ) (threshold : ℝ) : List ℚ :=
  (List.range (dstH * dstW)).map (fun idx =>
    let y := idx / dstW
    let x := idx % dstW
    let srcX := x * srcW / dstW
    let srcY := y * srcH / dstH
    if threshold ≤ mask (srcY * srcW + srcX) then 1 else 0)

/-- `generateMask`: destructure the prototype dims `[_, numProtos, protoH,
protoW]`, build the sigmoid soft mask over the `protoH * protoW` grid, then
resize to `INPUT_SIZE × INPUT_SIZE` and binarize at `MASK_THRESHOLD`. -/
noncomputable def generateMask (coeffs protos : List ℚ)
    (dims : ℕ × ℕ × ℕ × ℕ) : List ℚ :=
  let numProtos := dims.2.1
  let protoH := dims.2.2.1
  let protoW := dims.2.2.2
  let outputSize := protoH * protoW
  resizeAndBinarizeMask
    (fun i => maskSoftValue coeffs protos numProtos outputSize i)
    protoH protoW INPUT_SIZE INPUT_SIZE ((MASK_THRESHOLD : ℚ) : ℝ)

/-! ## Post-processing and pipeline (`processDetections`,
`runInference` steps 3-6 of `inference.worker.ts` lines 159-213) -/

/-- `processDetections`: per surviving detection, look up the food record,
reconstruct the mask, estimate nutrition, and assemble the final record. -/
noncomputable def processDetections (detections : List RawDetection)
    (maskProtos : List ℚ) (protoDims : ℕ × ℕ × ℕ × ℕ) : List Detection :=
  detections.map (fun detection =>
    let foodInfo := getFoodInfo detection.classId
    let mask := generateMask detection.maskCoeffs maskProtos protoDims
    let nutrition := calculateNutrition mask foodInfo
    ⟨detection.classId, foodInfo.name, detection.confidence, detection.box,
     mask, nutrition, foodInfo.icon⟩)

/-- The numeric pipeline of `runInference` after the neural-network call:
parse, suppress (with the configured default thresholds), post-process, and
aggregate.  The source computes `processingTime` from `performance.now()`;
the measured wall-clock duration is modelled as the explicit input
`elapsedMs`.  The message is populated exactly when no detection survives. -/
noncomputable def runPipeline (output0Data : List ℚ) (dims0 : ℕ × ℕ × ℕ)
    (output1Data : List ℚ) (dims1 : ℕ × ℕ × ℕ × ℕ)
    (elapsedMs : ℚ) : InferenceResult :=
  let rawDetections := parseYOLOOutput output0Data dims0
  let filteredDetections := applyNMS rawDetections CONFIDENCE_THRESHOLD IOU_THRESHOLD
  let detections := processDetections filteredDetections output1Data dims1
  let totalCalories := detections.foldl (fun sum d => sum + d.nutrition.calories) 0
  { detections := detections
    totalCalories := totalCalories
    processingTime := elapsedMs
    message :=
      if detections.length = 0 then
        some ("Aucun aliment détecté. Essayez de vous rapprocher.")
      else none }

/-! ## Confusion groups -/

/-- Modelled from the spec: the repository's source contains no confusion-group
configuration and no cross-class suppression stage; the spec describes a fixed
partition of class ids into groups of commonly-confused classes, giving
`{chicken, pork, steak, fried-meat}` (class ids 3, 4, 5, 23) as the example. -/
def confusionGroups : List (List ℕ) := [[3, 4, 5, 23]]

/-- Two class ids belong to a common confusion group. -/
def sameConfusionGroup (c1 c2 : ℕ) : Prop :=
  ∃ g ∈ confusionGroups, c1 ∈ g ∧ c2 ∈ g

instance (c1 c2 : ℕ) : Decidable (sameConfusionGroup c1 c2) := by
  unfold sameConfusionGroup; infer_instance

/-! ## Concrete test tensors -/

/-- Flat entry of a two-anchor detection tensor: anchor 0 is class 3
(chicken) at confidence 0.7 with pixel box (192, 320, 256, 256); anchor 1 is
class 4 (pork) at confidence 0.6 with pixel box (256, 320, 256, 256).  The
normalized boxes have IoU 3/5.  Layout is channel-major: entry `c * 2 + i`
holds channel `c` of anchor `i`. -/
def c1entry (n : ℕ) : ℚ :=
  if n = 0 then 192
  else if n = 1 then 256
  else if n = 2 ∨ n = 3 then 320
  else if 4 ≤ n ∧ n ≤ 7 then 256
  else if n = 14 then 0.7
  else if n = 17 then 0.6
  else 0

/-- The flat two-anchor detection tensor data (68 channels × 2 anchors). -/
def c1data : List ℚ := (List.range 136).map c1entry

/-- A one-anchor detection tensor whose class-0 score is 1 (all other
entries zero): 68 channels × 1 anchor. -/
def c2data : List ℚ := (List.range 68).map (fun n => if n = 4 then 1 else 0)

/-- The class-3 (chicken) raw detection of the confusion-group scenario. -/
def det3 : RawDetection := ⟨3, 0.7, ⟨3/10, 1/2, 2/5, 2/5⟩, []⟩

/-- The class-4 (pork) raw detection of the confusion-group scenario. -/
def det4 : RawDetection := ⟨4, 0.6, ⟨2/5, 1/2, 2/5, 2/5⟩, []⟩

/-! # Theorems -/

/-! ## IoU lemmas -/

theorem calculateIoU_eq_branch (box1 box2 : BoundingBox) :
    calculateIoU box1 box2 =
      if unionAreaCalc box1 box2 = 0 then 0
      else interAreaCalc box1 box2 / unionAreaCalc box1 box2 := rfl

theorem interAreaCalc_comm (box1 box2 : BoundingBox) :
    interAreaCalc box1 box2 = interAreaCalc box2 box1 := by
  simp only [interAreaCalc]
  rw [max_comm (box1.x - box1.width / 2), max_comm (box1.y - box1.height / 2),
    min_comm (box1.x + box1.width / 2), min_comm (box1.y + box1.height / 2)]

theorem unionAreaCalc_comm (box1 box2 : BoundingBox) :
    unionAreaCalc box1 box2 = unionAreaCalc box2 box1 := by
  unfold unionAreaCalc
  rw [interAreaCalc_comm box1 box2, add_comm]

theorem calculateIoU_comm (box1 box2 : BoundingBox) :
    calculateIoU box1 box2 = calculateIoU box2 box1 := by
  rw [calculateIoU_eq_branch, calculateIoU_eq_branch,
    interAreaCalc_comm box1 box2, unionAreaCalc_comm box1 box2]

theorem calculateIoU_self {b : BoundingBox}
    (hw : 0 < b.width) (hh : 0 < b.height) : calculateIoU b b = 1 := by
  rw [calculateIoU_eq_branch]
  have hinter : interAreaCalc b b = b.width * b.height := by
    unfold interAreaCalc
    simp only [max_self, min_self]
    have hx : b.x + b.width / 2 - (b.x - b.width / 2) = b.width := by ring
    have hy : b.y + b.height / 2 - (b.y - b.height / 2) = b.height := by ring
    rw [hx, hy, max_eq_right hw.le, max_eq_right hh.le]
  have hunion : unionAreaCalc b b = b.width * b.height := by
    unfold unionAreaCalc; rw [hinter]; ring
  have hpos : 0 < b.width * b.height := mul_pos hw hh
  rw [if_neg (by rw [hunion]; exact hpos.ne'), hinter, hunion,
    div_self hpos.ne']

theorem interAreaCalc_nonneg (box1 box2 : BoundingBox) :
    0 ≤ interAreaCalc box1 box2 := by
  unfold interAreaCalc
  exact mul_nonneg (le_max_left 0 _) (le_max_left 0 _)

theorem interAreaCalc_le_area1 (box1 box2 : BoundingBox)
    (hw1 : 0 ≤ box1.width) (hh1 : 0 ≤ box1.height) :
    interAreaCalc box1 box2 ≤ box1.width * box1.height := by
  unfold interAreaCalc
  have hx : min (box1.x + box1.width / 2) (box2.x + box2.width / 2) -
      max (box1.x - box1.width / 2) (box2.x - box2.width / 2) ≤ box1.width := by
    have h1 := min_le_left (box1.x + box1.width / 2) (box2.x + box2.width / 2)
    have h2 := le_max_left (box1.x - box1.width / 2) (box2.x - box2.width / 2)
    linarith
  have hy : min (box1.y + box1.height / 2) (box2.y + box2.height / 2) -
      max (box1.y - box1.height / 2) (box2.y - box2.height / 2) ≤ box1.height := by
    have h1 := min_le_left (box1.y + box1.height / 2) (box2.y + box2.height / 2)
    have h2 := le_max_left (box1.y - box1.height / 2) (box2.y - box2.height / 2)
    linarith
  exact mul_le_mul (max_le hw1 hx) (max_le hh1 hy) (le_max_left 0 _) hw1

theorem interAreaCalc_le_area2 (box1 box2 : BoundingBox)
    (hw2 : 0 ≤ box2.width) (hh2 : 0 ≤ box2.height) :
    interAreaCalc box1 box2 ≤ box2.width * box2.height := by
  rw [interAreaCalc_comm]
  exact interAreaCalc_le_area1 box2 box1 hw2 hh2

theorem calculateIoU_nonneg_le_one {box1 box2 : BoundingBox}
    (hw1 : 0 ≤ box1.width) (hh1 : 0 ≤ box1.height)
    (hw2 : 0 ≤ box2.width) (hh2 : 0 ≤ box2.height) :
    0 ≤ calculateIoU box1 box2 ∧ calculateIoU box1 box2 ≤ 1 := by
  rw [calculateIoU_eq_branch]
  split_ifs with h
  · exact ⟨le_refl 0, zero_le_one⟩
  · have hI := interAreaCalc_nonneg box1 box2
    have h1 := interAreaCalc_le_area1 box1 box2 hw1 hh1
    have h2 := interAreaCalc_le_area2 box1 box2 hw2 hh2
    have hunion : interAreaCalc box1 box2 ≤ unionAreaCalc box1 box2 := by
      unfold unionAreaCalc; linarith
    have hu0 : 0 ≤ unionAreaCalc box1 box2 := le_trans hI hunion
    have hupos : 0 < unionAreaCalc box1 box2 := lt_of_le_of_ne hu0 (Ne.symm h)
    exact ⟨div_nonneg hI hu0, (div_le_one hupos).mpr hunion⟩

theorem calculateIoU_disjoint {box1 box2 : BoundingBox}
    (h : min (box1.x + box1.width / 2) (box2.x + box2.width / 2) ≤
          max (box1.x - box1.width / 2) (box2.x - box2.width / 2) ∨
        min (box1.y + box1.height / 2) (box2.y + box2.height / 2) ≤
          max (box1.y - box1.height / 2) (box2.y - box2.height / 2)) :
    calculateIoU box1 box2 = 0 := by
  have hI : interAreaCalc box1 box2 = 0 := by
    simp only [interAreaCalc]
    rcases h with h | h
    · rw [max_eq_left (by linarith), zero_mul]
    · rw [max_eq_left (by linarith : min (box1.y + box1.height / 2)
        (box2.y + box2.height / 2) - max (box1.y - box1.height / 2)
        (box2.y - box2.height / 2) ≤ 0), mul_zero]
  rw [calculateIoU_eq_branch, hI]
  split_ifs with h0
  · rfl
  · exact zero_div _

theorem calculateIoU_union_zero {box1 box2 : BoundingBox}
    (h : unionAreaCalc box1 box2 = 0) : calculateIoU box1 box2 = 0 := by
  rw [calculateIoU_eq_branch, if_pos h]

/-! ## NMS loop invariants -/

theorem nmsInnerStep_subset (filtered : List RawDetection) (t : ℚ)
    (cur : RawDetection) (s : List ℕ) (j : ℕ) :
    s ⊆ nmsInnerStep filtered t cur s j := by
  simp only [nmsInnerStep]
  split_ifs
  · exact List.Subset.refl s
  · exact List.subset_cons_self _ _
  · exact List.Subset.refl s
  · exact List.Subset.refl s

theorem nmsInner_subset (filtered : List RawDetection) (t : ℚ)
    (cur : RawDetection) (js : List ℕ) :
    ∀ s : List ℕ, s ⊆ js.foldl (nmsInnerStep filtered t cur) s := by
  induction js with
  | nil => exact fun s => List.Subset.refl s
  | cons j js ih =>
    exact fun s => (nmsInnerStep_subset filtered t cur s j).trans (ih _)

theorem nmsInner_not_mem_spec (filtered : List RawDetection) (t : ℚ)
    (cur : RawDetection) (js : List ℕ) (j : ℕ) :
    ∀ s : List ℕ, j ∈ js →
      j ∉ js.foldl (nmsInnerStep filtered t cur) s →
      ¬(cur.classId = (filtered.getD j dummyDetection).classId ∧
        t < calculateIoU cur.box (filtered.getD j dummyDetection).box) := by
  induction js with
  | nil => intro s hj; cases hj
  | cons j' js ih =>
    intro s hj hout
    rcases List.mem_cons.mp hj with rfl | hj'
    · intro ⟨hcls, hiou⟩
      have hin : j ∈ nmsInnerStep filtered t cur s j := by
        simp only [nmsInnerStep]
        by_cases h1 : j ∈ s
        · rwa [if_pos h1]
        · rw [if_neg h1, if_pos hcls, if_pos hiou]
          exact List.mem_cons_self _ _
      exact hout (nmsInner_subset filtered t cur js _ hin)
    · exact ih _ hj' hout

/-- Every suppressed index has an earlier index of equal class (the inner loop
only ever suppresses a later same-class detection). -/
def SupOK (filtered : List RawDetection) (s : List ℕ) : Prop :=
  ∀ j ∈ s, ∃ i, i < j ∧
    (filtered.getD i dummyDetection).classId =
      (filtered.getD j dummyDetection).classId

theorem nmsInner_supOK (filtered : List RawDetection) (t : ℚ) (i0 : ℕ)
    (js : List ℕ) (hjs : ∀ j ∈ js, i0 < j) :
    ∀ s : List ℕ, SupOK filtered s →
      SupOK filtered
        (js.foldl (nmsInnerStep filtered t (filtered.getD i0 dummyDetection)) s) := by
  induction js with
  | nil => exact fun s hs => hs
  | cons j' js ih =>
    intro s hs
    refine ih (fun j hj => hjs j (List.mem_cons_of_mem _ hj)) _ ?_
    simp only [nmsInnerStep]
    split_ifs with h1 h2 h3
    · exact hs
    · intro j hj
      rcases List.mem_cons.mp hj with rfl | hj'
      · exact ⟨i0, hjs j (List.mem_cons_self _ _), h2⟩
      · exact hs j hj'
    · exact hs
    · exact hs

theorem nmsOuter_res_mono (filtered : List RawDetection) (t : ℚ) (n : ℕ)
    (is : List ℕ) (x : RawDetection) :
    ∀ acc : List RawDetection × List ℕ, x ∈ acc.1 →
      x ∈ (is.foldl (nmsOuterStep filtered t n) acc).1 := by
  induction is with
  | nil => exact fun acc hx => hx
  | cons i is ih =>
    intro acc hx
    refine ih _ ?_
    simp only [nmsOuterStep]
    split_ifs with h
    · exact hx
    · exact List.mem_append_left _ hx

theorem nmsOuter_sup_mono (filtered : List RawDetection) (t : ℚ) (n : ℕ)
    (is : List ℕ) (j : ℕ) :
    ∀ acc : List RawDetection × List ℕ, j ∈ acc.2 →
      j ∈ (is.foldl (nmsOuterStep filtered t n) acc).2 := by
  induction is with
  | nil => exact fun acc hj => hj
  | cons i is ih =>
    intro acc hj
    refine ih _ ?_
    simp only [nmsOuterStep]
    split_ifs with h
    · exact hj
    · exact nmsInner_subset filtered t _ _ _ hj

theorem nmsOuter_supOK (filtered : List RawDetection) (t : ℚ) (n : ℕ)
    (is : List ℕ) :
    ∀ acc : List RawDetection × List ℕ, SupOK filtered acc.2 →
      SupOK filtered ((is.foldl (nmsOuterStep filtered t n) acc).2) := by
  induction is with
  | nil => exact fun acc hs => hs
  | cons i is ih =>
    intro acc hs
    refine ih _ ?_
    simp only [nmsOuterStep]
    split_ifs with h
    · exact hs
    · exact nmsInner_supOK filtered t i _
        (fun j hj => ((List.mem_range'_1).mp hj).1) _ hs

theorem nmsOuter_keep (filtered : List RawDetection) (t : ℚ) (n : ℕ)
    (is : List ℕ) (k : ℕ) :
    ∀ acc : List RawDetection × List ℕ, k ∈ is →
      k ∉ (is.foldl (nmsOuterStep filtered t n) acc).2 →
      filtered.getD k dummyDetection ∈
        (is.foldl (nmsOuterStep filtered t n) acc).1 := by
  induction is with
  | nil => intro acc hk; cases hk
  | cons i is ih =>
    intro acc hk hout
    rcases List.mem_cons.mp hk with rfl | hk'
    · by_cases hmem : k ∈ acc.2
      · refine absurd (nmsOuter_sup_mono filtered t n is k _ ?_) hout
        simp only [nmsOuterStep]
        rw [if_pos hmem]
        exact hmem
      · refine nmsOuter_res_mono filtered t n is _ _ ?_
        simp only [nmsOuterStep]
        rw [if_neg hmem]
        exact List.mem_append_right _ (List.mem_singleton_self _)
    · exact ih _ hk' hout

theorem nmsOuter_length (filtered : List RawDetection) (t : ℚ) (n : ℕ)
    (is : List ℕ) :
    ∀ acc : List RawDetection × List ℕ,
      ((is.foldl (nmsOuterStep filtered t n) acc).1).length ≤
        acc.1.length + is.length := by
  induction is with
  | nil => intro acc; simp
  | cons i is ih =>
    intro acc
    refine le_trans (ih _) ?_
    have hstep : (nmsOuterStep filtered t n acc i).1.length ≤ acc.1.length + 1 := by
      simp only [nmsOuterStep]
      split_ifs with h
      · exact Nat.le_succ _
      · simp
    simp only [List.length_cons]
    omega

/-- The pairwise guarantee established by suppression: no later kept detection
both shares a class with an earlier kept one and overlaps it above `t`. -/
def NoOverlapKeep (t : ℚ) (a b : RawDetection) : Prop :=
  ¬(a.classId = b.classId ∧ t < calculateIoU a.box b.box)

theorem nmsOuter_pairwise (filtered : List RawDetection) (t : ℚ) (n : ℕ) :
    ∀ (m k : ℕ) (acc : List RawDetection × List ℕ), k + m = n →
      List.Pairwise (NoOverlapKeep t) acc.1 →
      (∀ d ∈ acc.1, ∀ j, j ∈ List.range' k m → j ∉ acc.2 →
        NoOverlapKeep t d (filtered.getD j dummyDetection)) →
      List.Pairwise (NoOverlapKeep t)
        (((List.range' k m).foldl (nmsOuterStep filtered t n) acc).1) := by
  intro m
  induction m with
  | zero => intro k acc _ hp _; simpa using hp
  | succ m ih =>
    intro k acc hkm hp hinv
    rw [List.range'_succ, List.foldl_cons]
    by_cases h : k ∈ acc.2
    · have hstep : nmsOuterStep filtered t n acc k = acc := by
        simp only [nmsOuterStep]; rw [if_pos h]
      rw [hstep]
      refine ih (k + 1) acc (by omega) hp ?_
      intro d hd j hj hjs
      refine hinv d hd j ?_ hjs
      have := List.mem_range'_1.mp hj
      exact List.mem_range'_1.mpr ⟨by omega, by omega⟩
    · have hstep : nmsOuterStep filtered t n acc k =
          (acc.1 ++ [filtered.getD k dummyDetection],
            (List.range' (k + 1) (n - (k + 1))).foldl
              (nmsInnerStep filtered t (filtered.getD k dummyDetection)) acc.2) := by
        simp only [nmsOuterStep]; rw [if_neg h]
      have hn : n - (k + 1) = m := by omega
      rw [hstep, hn]
      refine ih (k + 1) _ (by omega) ?_ ?_
      · refine List.pairwise_append.mpr ⟨hp, List.pairwise_singleton _ _, ?_⟩
        intro a ha b hb
        rw [List.mem_singleton] at hb
        subst hb
        exact hinv a ha k (List.mem_range'_1.mpr ⟨le_refl k, by omega⟩) h
      · intro d hd j hj hjs
        rcases List.mem_append.mp hd with hda | hdc
        · refine hinv d hda j ?_ ?_
          · have := List.mem_range'_1.mp hj
            exact List.mem_range'_1.mpr ⟨by omega, by omega⟩
          · exact fun hjin => hjs (nmsInner_subset filtered t _ _ _ hjin)
        · rw [List.mem_singleton] at hdc
          subst hdc
          exact nmsInner_not_mem_spec filtered t _ (List.range' (k + 1) m) j
            acc.2 hj hjs

theorem applyNMS_length_le (dets : List RawDetection) (c t : ℚ) :
    (applyNMS dets c t).length ≤ dets.length := by
  simp only [applyNMS]
  split_ifs with h
  · simp
  · refine le_trans (nmsOuter_length _ t _ _ _) ?_
    simp only [List.length_nil, List.length_range, Nat.zero_add]
    rw [List.length_insertionSort]
    exact List.length_filter_le _ _

theorem applyNMS_pairwise (dets : List RawDetection) (c t : ℚ) :
    List.Pairwise (NoOverlapKeep t) (applyNMS dets c t) := by
  simp only [applyNMS]
  split_ifs with h
  · exact List.Pairwise.nil
  · rw [List.range_eq_range']
    refine nmsOuter_pairwise _ t _ _ 0 ([], []) (by omega) List.Pairwise.nil ?_
    intro d hd
    cases hd

theorem applyNMS_mem_of_unique_class (dets : List RawDetection) (c t : ℚ)
    (d : RawDetection) (hd : d ∈ dets) (hconf : c ≤ d.confidence)
    (huniq : ∀ e ∈ dets, e.classId = d.classId → e = d) :
    d ∈ applyNMS dets c t := by
  simp only [applyNMS]
  have hdf : d ∈ dets.filter (fun e => decide (c ≤ e.confidence)) :=
    List.mem_filter.mpr ⟨hd, decide_eq_true hconf⟩
  have hne : ¬((dets.filter (fun e => decide (c ≤ e.confidence))).length = 0) := by
    intro h0
    rw [List.length_eq_zero] at h0
    rw [h0] at hdf
    cases hdf
  rw [if_neg hne]
  have hds : d ∈ (dets.filter (fun e => decide (c ≤ e.confidence))).insertionSort
      (fun a b => b.confidence ≤ a.confidence) :=
    ((List.perm_insertionSort _ _).mem_iff).mpr hdf
  obtain ⟨kk, hkk, hgetkk⟩ := List.mem_iff_getElem.mp hds
  have hQ : ∃ i,
      i < ((dets.filter (fun e => decide (c ≤ e.confidence))).insertionSort
        (fun a b => b.confidence ≤ a.confidence)).length ∧
      ((dets.filter (fun e => decide (c ≤ e.confidence))).insertionSort
        (fun a b => b.confidence ≤ a.confidence)).getD i dummyDetection = d :=
    ⟨kk, hkk, by rw [List.getD_eq_getElem _ _ hkk]; exact hgetkk⟩
  classical
  set sorted := (dets.filter (fun e => decide (c ≤ e.confidence))).insertionSort
    (fun a b => b.confidence ≤ a.confidence) with hsorted
  have hksp := Nat.find_spec hQ
  have hmemchain : ∀ e, e ∈ sorted → e ∈ dets := by
    intro e he
    rw [hsorted] at he
    have := ((List.perm_insertionSort
      (fun a b => b.confidence ≤ a.confidence)
      (dets.filter (fun e => decide (c ≤ e.confidence)))).mem_iff).mp he
    exact (List.mem_filter.mp this).1
  have hsupOK : SupOK sorted
      (((List.range sorted.length).foldl
        (nmsOuterStep sorted t sorted.length) ([], [])).2) := by
    refine nmsOuter_supOK sorted t sorted.length _ _ ?_
    intro j hj
    cases hj
  have hknot : Nat.find hQ ∉
      ((List.range sorted.length).foldl
        (nmsOuterStep sorted t sorted.length) ([], [])).2 := by
    intro hkin
    obtain ⟨i, hik, hcls⟩ := hsupOK (Nat.find hQ) hkin
    have hin' : i < sorted.length := lt_trans hik hksp.1
    have hmem : sorted.getD i dummyDetection ∈ sorted := by
      rw [List.getD_eq_getElem _ _ hin']
      exact List.getElem_mem _
    have heq : sorted.getD i dummyDetection = d := by
      refine huniq _ (hmemchain _ hmem) ?_
      rw [hksp.2] at hcls
      exact hcls
    exact Nat.find_min hQ hik ⟨hin', heq⟩
  have hkeep := nmsOuter_keep sorted t sorted.length
    (List.range sorted.length) (Nat.find hQ) ([], [])
    (List.mem_range.mpr hksp.1) hknot
  rw [hksp.2] at hkeep
  exact hkeep

/-! ## Post-processing helper lemmas -/

theorem processDetections_map_confidence (l : List RawDetection)
    (protos : List ℚ) (dims : ℕ × ℕ × ℕ × ℕ) :
    (processDetections l protos dims).map (fun d => d.confidence) =
      l.map (fun d => d.confidence) := by
  simp only [processDetections, List.map_map]
  rfl

theorem processDetections_map_classId (l : List RawDetection)
    (protos : List ℚ) (dims : ℕ × ℕ × ℕ × ℕ) :
    (processDetections l protos dims).map (fun d => d.classId) =
      l.map (fun d => d.classId) := by
  simp only [processDetections, List.map_map]
  rfl

theorem processDetections_map_box (l : List RawDetection)
    (protos : List ℚ) (dims : ℕ × ℕ × ℕ × ℕ) :
    (processDetections l protos dims).map (fun d => d.box) =
      l.map (fun d => d.box) := by
  simp only [processDetections, List.map_map]
  rfl

theorem processDetections_length (l : List RawDetection)
    (protos : List ℚ) (dims : ℕ × ℕ × ℕ × ℕ) :
    (processDetections l protos dims).length = l.length := by
  simp only [processDetections, List.length_map]

theorem foldl_add_calories (l : List Detection) :
    ∀ a : ℚ, l.foldl (fun sum d => sum + d.nutrition.calories) a =
      a + (l.map (fun d => d.nutrition.calories)).sum := by
  induction l with
  | nil => intro a; simp
  | cons d l ih =>
    intro a
    simp only [List.foldl_cons, List.map_cons, List.sum_cons, ih]
    ring

theorem foldl_add_eq_count (l : List ℚ) (hl : ∀ v ∈ l, v = 0 ∨ v = 1) :
    l.foldl (fun sum val => sum + val) 0 = (l.count 1 : ℚ) := by
  have key : ∀ (l' : List ℚ), (∀ v ∈ l', v = 0 ∨ v = 1) → ∀ a : ℚ,
      l'.foldl (fun sum val => sum + val) a = a + (l'.count 1 : ℚ) := by
    intro l'
    induction l' with
    | nil => intro _ a; simp
    | cons v l' ih =>
      intro hvl a
      have hv := hvl v (List.mem_cons_self _ _)
      have htail := fun w hw => hvl w (List.mem_cons_of_mem _ hw)
      simp only [List.foldl_cons, ih htail]
      rcases hv with rfl | rfl
      · rw [List.count_cons_of_ne (by norm_num)]
        ring
      · rw [List.count_cons_self]
        push_cast
        ring
  simpa using key l hl 0

/-! ## Mask reconstruction lemmas -/

theorem getD_map_range {α : Type} [Inhabited α] (n i : ℕ) (f : ℕ → α) (d : α)
    (hi : i < n) : (((List.range n).map f).getD i d) = f i := by
  have hlen : i < ((List.range n).map f).length := by
    simpa using hi
  rw [List.getD_eq_getElem _ _ hlen]
  simp

theorem resizeAndBinarizeMask_length (mask : ℕ → ℝ) (srcH srcW dstH dstW : ℕ)
    (threshold : ℝ) :
    (resizeAndBinarizeMask mask srcH srcW dstH dstW threshold).length =
      dstH * dstW := by
  simp [resizeAndBinarizeMask]

theorem resizeAndBinarizeMask_mem (mask : ℕ → ℝ) (srcH srcW dstH dstW : ℕ)
    (threshold : ℝ) (v : ℚ)
    (hv : v ∈ resizeAndBinarizeMask mask srcH srcW dstH dstW threshold) :
    v = 0 ∨ v = 1 := by
  simp only [resizeAndBinarizeMask, List.mem_map] at hv
  obtain ⟨idx, _, hidx⟩ := hv
  by_cases h : threshold ≤ mask (idx / dstW * srcH / dstH * srcW + idx % dstW * srcW / dstW)
  · right; rw [← hidx]; simp [h]
  · left; rw [← hidx]; simp [h]

theorem resizeAndBinarizeMask_getD (mask : ℕ → ℝ) (srcH srcW dstH dstW : ℕ)
    (threshold : ℝ) (idx : ℕ) (hidx : idx < dstH * dstW) :
    (resizeAndBinarizeMask mask srcH srcW dstH dstW threshold).getD idx 0 =
      if threshold ≤
          mask ((idx / dstW * srcH / dstH) * srcW + idx % dstW * srcW / dstW)
      then 1 else 0 := by
  unfold resizeAndBinarizeMask
  rw [getD_map_range _ _ _ _ hidx]

theorem generateMask_length (coeffs protos : List ℚ) (dims : ℕ × ℕ × ℕ × ℕ) :
    (generateMask coeffs protos dims).length = INPUT_SIZE * INPUT_SIZE := by
  unfold generateMask
  exact resizeAndBinarizeMask_length _ _ _ _ _ _

theorem generateMask_mem (coeffs protos : List ℚ) (dims : ℕ × ℕ × ℕ × ℕ)
    (v : ℚ) (hv : v ∈ generateMask coeffs protos dims) : v = 0 ∨ v = 1 := by
  unfold generateMask at hv
  exact resizeAndBinarizeMask_mem _ _ _ _ _ _ _ hv

theorem generateMask_getD (coeffs protos : List ℚ) (b np ph pw : ℕ) (idx : ℕ)
    (hidx : idx < INPUT_SIZE * INPUT_SIZE) :
    (generateMask coeffs protos (b, np, ph, pw)).getD idx 0 =
      if ((MASK_THRESHOLD : ℚ) : ℝ) ≤
          maskSoftValue coeffs protos np (ph * pw)
            ((idx / INPUT_SIZE * ph / INPUT_SIZE) * pw +
              idx % INPUT_SIZE * pw / INPUT_SIZE)
      then 1 else 0 := by
  unfold generateMask
  exact resizeAndBinarizeMask_getD _ _ _ _ _ _ _ hidx

/-! # Claim theorems -/

/-- C7: for every box with positive width and height, `calculateIoU` of the
box with itself is `1`, and `calculateIoU` is symmetric in its arguments. -/
theorem c7_iou_self_and_comm :
    (∀ b : BoundingBox, 0 < b.width → 0 < b.height → calculateIoU b b = 1) ∧
    (∀ b1 b2 : BoundingBox, calculateIoU b1 b2 = calculateIoU b2 b1) :=
  ⟨fun _ hw hh => calculateIoU_self hw hh, calculateIoU_comm⟩

/-- Witness for C7 at the unit box centered at the origin and a concrete
distinct pair of boxes. -/
theorem c7_iou_self_and_comm_witness :
    (0 : ℚ) < 1 ∧
    calculateIoU ⟨0, 0, 1, 1⟩ ⟨0, 0, 1, 1⟩ = 1 ∧
    calculateIoU ⟨0, 0, 1, 1⟩ ⟨1, 0, 2, 2⟩ = calculateIoU ⟨1, 0, 2, 2⟩ ⟨0, 0, 1, 1⟩ :=
  ⟨by norm_num,
   c7_iou_self_and_comm.1 ⟨0, 0, 1, 1⟩ (by norm_num) (by norm_num),
   c7_iou_self_and_comm.2 ⟨0, 0, 1, 1⟩ ⟨1, 0, 2, 2⟩⟩

/-- C8: `calculateIoU` is total and returns `0` both for boxes that do not
overlap on at least one axis (the corner-format intersection extent is empty
horizontally or vertically) and for pairs whose union area is zero, in which
case the explicit guard avoids the division. -/
theorem c8_iou_total_zero :
    (∀ b1 b2 : BoundingBox,
      (min (b1.x + b1.width / 2) (b2.x + b2.width / 2) ≤
          max (b1.x - b1.width / 2) (b2.x - b2.width / 2) ∨
        min (b1.y + b1.height / 2) (b2.y + b2.height / 2) ≤
          max (b1.y - b1.height / 2) (b2.y - b2.height / 2)) →
      calculateIoU b1 b2 = 0) ∧
    (∀ b1 b2 : BoundingBox, unionAreaCalc b1 b2 = 0 → calculateIoU b1 b2 = 0) :=
  ⟨fun _ _ h => calculateIoU_disjoint h, fun _ _ h => calculateIoU_union_zero h⟩

/-- Witness for C8: two horizontally disjoint unit boxes, and the degenerate
zero-area box paired with itself (zero union area). -/
theorem c8_iou_total_zero_witness :
    min ((0 : ℚ) + 1 / 2) (10 + 1 / 2) ≤ max ((0 : ℚ) - 1 / 2) (10 - 1 / 2) ∧
    calculateIoU ⟨0, 0, 1, 1⟩ ⟨10, 0, 1, 1⟩ = 0 ∧
    unionAreaCalc ⟨0, 0, 0, 0⟩ ⟨0, 0, 0, 0⟩ = 0 ∧
    calculateIoU ⟨0, 0, 0, 0⟩ ⟨0, 0, 0, 0⟩ = 0 := by
  refine ⟨by norm_num, ?_, by with_unfolding_all decide, ?_⟩
  · exact c8_iou_total_zero.1 ⟨0, 0, 1, 1⟩ ⟨10, 0, 1, 1⟩ (Or.inl (by norm_num))
  · exact c8_iou_total_zero.2 ⟨0, 0, 0, 0⟩ ⟨0, 0, 0, 0⟩ (by with_unfolding_all decide)

/-- C10: for boxes with non-negative widths and heights, `calculateIoU`
returns a value between `0` and `1`. -/
theorem c10_iou_bounded (b1 b2 : BoundingBox)
    (hw1 : 0 ≤ b1.width) (hh1 : 0 ≤ b1.height)
    (hw2 : 0 ≤ b2.width) (hh2 : 0 ≤ b2.height) :
    0 ≤ calculateIoU b1 b2 ∧ calculateIoU b1 b2 ≤ 1 :=
  calculateIoU_nonneg_le_one hw1 hh1 hw2 hh2

/-- Witness for C10 at two concrete overlapping boxes. -/
theorem c10_iou_bounded_witness :
    (0 : ℚ) ≤ 1 ∧
    0 ≤ calculateIoU ⟨0, 0, 1, 1⟩ ⟨0, 0, 2, 2⟩ ∧
    calculateIoU ⟨0, 0, 1, 1⟩ ⟨0, 0, 2, 2⟩ ≤ 1 :=
  ⟨by norm_num,
   (c10_iou_bounded ⟨0, 0, 1, 1⟩ ⟨0, 0, 2, 2⟩
     (by norm_num) (by norm_num) (by norm_num) (by norm_num)).1,
   (c10_iou_bounded ⟨0, 0, 1, 1⟩ ⟨0, 0, 2, 2⟩
     (by norm_num) (by norm_num) (by norm_num) (by norm_num)).2⟩

/-- C3: `applyNMS` never returns more detections than it received, and its
output contains no two same-class detections whose IoU (in either argument
order) exceeds the overlap threshold. -/
theorem c3_applyNMS_sound (dets : List RawDetection) (c t : ℚ) :
    (applyNMS dets c t).length ≤ dets.length ∧
    List.Pairwise (fun a b => a.classId = b.classId →
        calculateIoU a.box b.box ≤ t ∧ calculateIoU b.box a.box ≤ t)
      (applyNMS dets c t) := by
  refine ⟨applyNMS_length_le dets c t, ?_⟩
  refine (applyNMS_pairwise dets c t).imp ?_
  intro a b hab hcls
  have h1 : calculateIoU a.box b.box ≤ t :=
    not_lt.mp (fun hlt => hab ⟨hcls, hlt⟩)
  exact ⟨h1, by rw [calculateIoU_comm]; exact h1⟩

/-- Witness for C3 at a concrete two-detection input. -/
theorem c3_applyNMS_sound_witness :
    (applyNMS [det3, det4] CONFIDENCE_THRESHOLD IOU_THRESHOLD).length ≤
      [det3, det4].length ∧
    List.Pairwise (fun a b => a.classId = b.classId →
        calculateIoU a.box b.box ≤ IOU_THRESHOLD ∧
        calculateIoU b.box a.box ≤ IOU_THRESHOLD)
      (applyNMS [det3, det4] CONFIDENCE_THRESHOLD IOU_THRESHOLD) :=
  c3_applyNMS_sound [det3, det4] CONFIDENCE_THRESHOLD IOU_THRESHOLD

/-- C4: for every binary mask (entries all `0` or `1`) and every food record,
`calculateNutrition` returns `weightGrams = pixelCount * PIXEL_SCALE² *
thickness * density` with `pixelCount` the number of `1`-entries, each
nutrient equal to its per-100g value times `weightGrams / 100`, and a mask
with zero `1`-entries yields the all-zero record. -/
theorem c4_calculateNutrition_formula (mask : List ℚ) (foodInfo : FoodInfo)
    (hmask : ∀ v ∈ mask, v = 0 ∨ v = 1) :
    (calculateNutrition mask foodInfo).weightGrams =
      (mask.count 1 : ℚ) * PIXEL_SCALE ^ 2 * foodInfo.defaultThicknessCm *
        foodInfo.density ∧
    (calculateNutrition mask foodInfo).calories =
      foodInfo.caloriesPer100g *
        ((calculateNutrition mask foodInfo).weightGrams / 100) ∧
    (calculateNutrition mask foodInfo).protein =
      foodInfo.proteinPer100g *
        ((calculateNutrition mask foodInfo).weightGrams / 100) ∧
    (calculateNutrition mask foodInfo).carbs =
      foodInfo.carbsPer100g *
        ((calculateNutrition mask foodInfo).weightGrams / 100) ∧
    (calculateNutrition mask foodInfo).fat =
      foodInfo.fatPer100g *
        ((calculateNutrition mask foodInfo).weightGrams / 100) ∧
    (calculateNutrition mask foodInfo).fiber =
      foodInfo.fiberPer100g *
        ((calculateNutrition mask foodInfo).weightGrams / 100) ∧
    (mask.count 1 = 0 → calculateNutrition mask foodInfo = ⟨0, 0, 0, 0, 0, 0⟩) := by
  have hsum : mask.foldl (fun sum val => sum + val) 0 = (mask.count 1 : ℚ) :=
    foldl_add_eq_count mask hmask
  by_cases h : (mask.count 1 : ℚ) = 0
  · have hcalc : calculateNutrition mask foodInfo = ⟨0, 0, 0, 0, 0, 0⟩ := by
      simp only [calculateNutrition, hsum]
      rw [if_pos h]
    rw [hcalc]
    exact ⟨by simp [h], by simp, by simp, by simp, by simp, by simp, fun _ => rfl⟩
  · simp only [calculateNutrition, hsum]
    rw [if_neg h]
    refine ⟨by dsimp only; try ring, by dsimp only; try ring, by dsimp only; try ring,
      by dsimp only; try ring, by dsimp only; try ring, by dsimp only; try ring, ?_⟩
    intro h0
    exact absurd (by exact_mod_cast h0) h

/-- Witness for C4: the mask `[1, 0, 1]` with the rice record (class 0), plus
the all-zero mask `[0, 0]` for the zero-count conjunct. -/
theorem c4_calculateNutrition_formula_witness :
    (∀ v ∈ [(1 : ℚ), 0, 1], v = 0 ∨ v = 1) ∧
    (calculateNutrition [1, 0, 1] (getFoodInfo 0)).weightGrams =
      (([(1 : ℚ), 0, 1].count 1 : ℚ)) * PIXEL_SCALE ^ 2 *
        (getFoodInfo 0).defaultThicknessCm * (getFoodInfo 0).density ∧
    (calculateNutrition [1, 0, 1] (getFoodInfo 0)).calories =
      (getFoodInfo 0).caloriesPer100g *
        ((calculateNutrition [1, 0, 1] (getFoodInfo 0)).weightGrams / 100) ∧
    calculateNutrition [0, 0] (getFoodInfo 0) = ⟨0, 0, 0, 0, 0, 0⟩ := by
  refine ⟨by norm_num, ?_, ?_, ?_⟩
  · exact (c4_calculateNutrition_formula [1, 0, 1] (getFoodInfo 0) (by norm_num)).1
  · exact (c4_calculateNutrition_formula [1, 0, 1] (getFoodInfo 0) (by norm_num)).2.1
  · exact (c4_calculateNutrition_formula [0, 0] (getFoodInfo 0)
      (by norm_num)).2.2.2.2.2.2 (by with_unfolding_all decide)

/-- C6: for every coefficient sequence and prototype tensor with declared
dims `[b, np, ph, pw]`, `generateMask` returns a mask of length
`INPUT_SIZE² = 409600` whose entries are all `0` or `1`, an entry being `1`
exactly when the nearest-neighbor-sampled sigmoid value is at least the
binarization threshold. -/
theorem c6_generateMask_spec (coeffs protos : List ℚ) (b np ph pw : ℕ) :
    (generateMask coeffs protos (b, np, ph, pw)).length =
      INPUT_SIZE * INPUT_SIZE ∧
    (∀ v ∈ generateMask coeffs protos (b, np, ph, pw), v = 0 ∨ v = 1) ∧
    (∀ idx, idx < INPUT_SIZE * INPUT_SIZE →
      ((generateMask coeffs protos (b, np, ph, pw)).getD idx 0 = 1 ↔
        ((MASK_THRESHOLD : ℚ) : ℝ) ≤
          maskSoftValue coeffs protos np (ph * pw)
            ((idx / INPUT_SIZE * ph / INPUT_SIZE) * pw +
              idx % INPUT_SIZE * pw / INPUT_SIZE))) := by
  refine ⟨generateMask_length coeffs protos (b, np, ph, pw),
    fun v hv => generateMask_mem coeffs protos (b, np, ph, pw) v hv, ?_⟩
  intro idx hidx
  rw [generateMask_getD coeffs protos b np ph pw idx hidx]
  split_ifs with h
  · simp [h]
  · simp [h]

/-- Witness for C6 at empty coefficient and prototype lists with the standard
dims `[1, 32, 160, 160]`, evaluating the characterization at index `0`. -/
theorem c6_generateMask_spec_witness :
    (generateMask [] [] (1, 32, 160, 160)).length = INPUT_SIZE * INPUT_SIZE ∧
    ((generateMask [] [] (1, 32, 160, 160)).getD 0 0 = 1 ↔
      ((MASK_THRESHOLD : ℚ) : ℝ) ≤ maskSoftValue [] [] 32 (160 * 160) 0) := by
  refine ⟨(c6_generateMask_spec [] [] 1 32 160 160).1, ?_⟩
  have h := (c6_generateMask_spec [] [] 1 32 160 160).2.2 0 (by norm_num [INPUT_SIZE])
  simpa using h

/-- C1 (counterexample): two anchors from the spec's example confusion group
(classes 3 and 4, chicken and pork), different classes, boxes with IoU
`3/5 > 0.45`, confidences `0.7` and `0.6`: the pipeline's result contains
BOTH detections (confidences `[0.7, 0.6]`), not only the `0.7` one — the
code performs no cross-class suppression. -/
theorem c1_cross_class_counterexample :
    sameConfusionGroup 3 4 ∧ (3 : ℕ) ≠ 4 ∧
    calculateIoU ⟨3/10, 1/2, 2/5, 2/5⟩ ⟨2/5, 1/2, 2/5, 2/5⟩ = 3/5 ∧
    IOU_THRESHOLD < 3/5 ∧
    ((runPipeline c1data (1, 68, 2) [] (1, 32, 160, 160) 0).detections.map
      (fun d => d.confidence)) = [7/10, 3/5] ∧
    ((runPipeline c1data (1, 68, 2) [] (1, 32, 160, 160) 0).detections.map
      (fun d => d.classId)) = [3, 4] ∧
    ¬(((runPipeline c1data (1, 68, 2) [] (1, 32, 160, 160) 0).detections.map
      (fun d => d.confidence)) = [7/10]) := by
  have hdet : (runPipeline c1data (1, 68, 2) [] (1, 32, 160, 160) 0).detections =
      processDetections (applyNMS (parseYOLOOutput c1data (1, 68, 2))
        CONFIDENCE_THRESHOLD IOU_THRESHOLD) [] (1, 32, 160, 160) := rfl
  refine ⟨by decide, by decide, by with_unfolding_all decide,
    by with_unfolding_all decide, ?_, ?_, ?_⟩
  · rw [hdet, processDetections_map_confidence]
    with_unfolding_all decide
  · rw [hdet, processDetections_map_classId]
    with_unfolding_all decide
  · rw [hdet, processDetections_map_confidence]
    with_unfolding_all decide

/-- C1 (amended): `applyNMS` performs only same-class suppression, so a
detection that meets the confidence threshold and whose class id differs
from that of every other input detection is always kept, regardless of
confusion-group membership or overlap. -/
theorem c1_no_cross_class_suppression (dets : List RawDetection) (c t : ℚ)
    (d : RawDetection) (hd : d ∈ dets) (hconf : c ≤ d.confidence)
    (huniq : ∀ e ∈ dets, e.classId = d.classId → e = d) :
    d ∈ applyNMS dets c t :=
  applyNMS_mem_of_unique_class dets c t d hd hconf huniq

/-- Witness for the amended C1: in the confusion-group scenario the
lower-confidence class-4 detection survives suppression. -/
theorem c1_no_cross_class_suppression_witness :
    det4 ∈ [det3, det4] ∧ CONFIDENCE_THRESHOLD ≤ det4.confidence ∧
    det4 ∈ applyNMS [det3, det4] CONFIDENCE_THRESHOLD IOU_THRESHOLD :=
  ⟨by with_unfolding_all decide, by with_unfolding_all decide,
   c1_no_cross_class_suppression [det3, det4] CONFIDENCE_THRESHOLD IOU_THRESHOLD
     det4 (by with_unfolding_all decide) (by with_unfolding_all decide)
     (by with_unfolding_all decide)⟩

/-- C2 (counterexample): with a declared channel count of `100`
(different from `4 + 32 + 32 = 68`) the parser still silently parses an
anchor and returns a detection, and with a 33-coefficient sequence (different
from the prototype tensor's declared 32 channels) `generateMask` still builds
a full mask; no configuration error is reported in either case. -/
theorem c2_no_validation_counterexample :
    (100 : ℕ) ≠ 4 + numClasses + numMaskCoeffs ∧
    (parseYOLOOutput c2data (1, 100, 1)).length = 1 ∧
    (List.replicate 33 (0 : ℚ)).length ≠ 32 ∧
    (generateMask (List.replicate 33 0) [] (1, 32, 160, 160)).length =
      INPUT_SIZE * INPUT_SIZE := by
  refine ⟨by decide, by with_unfolding_all decide, by decide, ?_⟩
  exact generateMask_length (List.replicate 33 0) [] (1, 32, 160, 160)

/-- C2 (amended): no validation of the declared channel count exists: the
parser's result is entirely independent of the declared batch and channel
entries of its dims argument, and `generateMask` totally builds a mask of
length `INPUT_SIZE²` for every coefficient sequence (of any length). -/
theorem c2_parser_ignores_channel_count :
    (∀ (data : List ℚ) (b c b' c' a : ℕ),
      parseYOLOOutput data (b, c, a) = parseYOLOOutput data (b', c', a)) ∧
    (∀ (coeffs protos : List ℚ) (b np ph pw : ℕ),
      (generateMask coeffs protos (b, np, ph, pw)).length =
        INPUT_SIZE * INPUT_SIZE) :=
  ⟨fun _ _ _ _ _ _ => rfl,
   fun coeffs protos b np ph pw => generateMask_length coeffs protos (b, np, ph, pw)⟩

/-- C5 (counterexample): the `processingTime` field is the measured
wall-clock duration (`performance.now()` in the source, the explicit clock
input of the model), so two invocations of the pipeline on identical tensors
but different measured durations do not return bit-identical results. -/
theorem c5_processing_time_counterexample :
    runPipeline [] (1, 68, 0) [] (1, 32, 160, 160) 1 ≠
      runPipeline [] (1, 68, 0) [] (1, 32, 160, 160) 2 := by
  intro h
  have h1 : (runPipeline [] (1, 68, 0) [] (1, 32, 160, 160) 1).processingTime = 1 := rfl
  have h2 : (runPipeline [] (1, 68, 0) [] (1, 32, 160, 160) 2).processingTime = 2 := rfl
  rw [h, h2] at h1
  norm_num at h1

/-- C5 (amended): apart from the wall-clock `processingTime` field, the
pipeline is a pure function of its input tensors: two invocations on
identical tensors agree on detections, total calories and message, with no
hidden randomness. -/
theorem c5_pipeline_deterministic_core (d0 : List ℚ) (dm0 : ℕ × ℕ × ℕ)
    (d1 : List ℚ) (dm1 : ℕ × ℕ × ℕ × ℕ) (t1 t2 : ℚ) :
    (runPipeline d0 dm0 d1 dm1 t1).detections =
      (runPipeline d0 dm0 d1 dm1 t2).detections ∧
    (runPipeline d0 dm0 d1 dm1 t1).totalCalories =
      (runPipeline d0 dm0 d1 dm1 t2).totalCalories ∧
    (runPipeline d0 dm0 d1 dm1 t1).message =
      (runPipeline d0 dm0 d1 dm1 t2).message :=
  ⟨rfl, rfl, rfl⟩

/-- C9: when the surviving-detection set is empty the pipeline returns an
empty (non-null) detections sequence, the populated nothing-detected
message, and `totalCalories = 0`; and in every case `totalCalories` is the
sum of the detections' nutrition calories. -/
theorem c9_pipeline_empty_and_aggregation (d0 : List ℚ) (dm0 : ℕ × ℕ × ℕ)
    (d1 : List ℚ) (dm1 : ℕ × ℕ × ℕ × ℕ) (t : ℚ) :
    (applyNMS (parseYOLOOutput d0 dm0) CONFIDENCE_THRESHOLD IOU_THRESHOLD = [] →
      (runPipeline d0 dm0 d1 dm1 t).detections = [] ∧
      (runPipeline d0 dm0 d1 dm1 t).message =
        some ("Aucun aliment détecté. Essayez de vous rapprocher.") ∧
      (runPipeline d0 dm0 d1 dm1 t).totalCalories = 0) ∧
    (runPipeline d0 dm0 d1 dm1 t).totalCalories =
      ((runPipeline d0 dm0 d1 dm1 t).detections.map
        (fun d => d.nutrition.calories)).sum := by
  constructor
  · intro h
    refine ⟨?_, ?_, ?_⟩ <;> simp [runPipeline, h, processDetections]
  · simp only [runPipeline]
    rw [foldl_add_calories]
    simp

/-- Witness for C9: a one-anchor tensor whose class scores are all zero, so
no anchor meets the confidence threshold and the surviving set is empty. -/
theorem c9_pipeline_empty_and_aggregation_witness :
    applyNMS (parseYOLOOutput (List.replicate 68 0) (1, 68, 1))
      CONFIDENCE_THRESHOLD IOU_THRESHOLD = [] ∧
    (runPipeline (List.replicate 68 0) (1, 68, 1) [] (1, 32, 160, 160) 5).detections = [] ∧
    (runPipeline (List.replicate 68 0) (1, 68, 1) [] (1, 32, 160, 160) 5).message =
      some ("Aucun aliment détecté. Essayez de vous rapprocher.") ∧
    (runPipeline (List.replicate 68 0) (1, 68, 1) [] (1, 32, 160, 160) 5).totalCalories = 0 := by
  have h : applyNMS (parseYOLOOutput (List.replicate 68 0) (1, 68, 1))
      CONFIDENCE_THRESHOLD IOU_THRESHOLD = [] := by with_unfolding_all decide
  have hmain := (c9_pipeline_empty_and_aggregation (List.replicate 68 0)
    (1, 68, 1) [] (1, 32, 160, 160) 5).1 h
  exact ⟨h, hmain.1, hmain.2.1, hmain.2.2⟩
